import Mathlib

/-!
Verification development for the `learning-todomvc` repository.

The heart of the repository is the message scheduler in `src/scheduler.rs`:
a single-threaded, reentrancy-tolerant dispatcher owning

  * `controller : Rc<RefCell<Option<Controller>>>`
  * `view       : Rc<RefCell<Option<View>>>`
  * `events     : RefCell<Vec<Message>>`   (used as a stack: push / pop)
  * `running    : RefCell<bool>`

with operations `add_message`, `run`, `next_message`, `set_view`,
`set_controller` (the last two have empty bodies in the source).

The embedding below is a direct state-passing translation.  The mutually
recursive call graph `add_message → run → next_message → add_message`
(the last edge through the enqueues a collaborator performs while being
dispatched) is made total with an explicit fuel argument that bounds the
recursion depth; running out of fuel is reported as `Res.fuelOut`, which
models a Rust execution that has not yet returned at that depth.

Two pieces of ghost instrumentation are added to the state, both write-only
as far as the translated control flow is concerned:

  * `log` records, in order, every message removed from `events` by
    `next_message`, paired with `true` when it was handed to a bound
    collaborator's `call` and `false` when its target was unbound and the
    message was discarded (the two branches of the `if let Some(ref mut ag)`
    tests in `next_message`);
  * `cBorrowed` / `vBorrowed` mirror the `RefCell` borrow flags of the
    `controller` and `view` cells.  These are the only two cells whose
    borrow in the source is held across a call (`try_borrow_mut` is taken
    and the resulting `RefMut` is alive while `ag.call(e)` runs); the
    borrows of `events` and `running` all live in lexical blocks that close
    before the next call, so in a sequential execution they can never
    observe the cell already borrowed and are translated as atomic reads
    and writes.  The `exit("This might be a deadlock")` branch guarding the
    collaborator cells is translated as the `Res.deadlock` outcome.

Collaborator behaviour (`Controller::call` / `View::call`) is kept
parametric: a collaborator is an internal state together with a step
function returning the updated state and the list of messages it pushes
through `Scheduler::add_message` before returning, in order.  The payload
enums themselves are translated concretely from `src/controller.rs` and
`src/view.rs`.
-/

namespace TodoMVC

/-- Payload enum from `src/controller.rs` (`pub enum ControllerMessage`). -/
inductive ControllerMessage where
  | AddItem (title : String)
  | SetPage (hash : String)
  | EditItemSave (id : String) (value : String)
  | EditItemCancel (id : String)
  | RemoveCompleted
  | RemoveItem (id : String)
  | ToggleAll (completed : Bool)
  | ToggleItem (id : String) (completed : Bool)
deriving DecidableEq, Repr

/-- Payload enum from `src/view.rs` (`pub enum ViewMessage`). -/
inductive ViewMessage where
  | ClearNewTodo
deriving DecidableEq, Repr

/-- Tagged union from `src/lib.rs` (`pub enum Message`): a payload routed
either to the Controller or to the View. -/
inductive Message where
  | Controller (m : ControllerMessage)
  | View (m : ViewMessage)
deriving DecidableEq, Repr

/-- State of `struct Scheduler` (`src/scheduler.rs`), for collaborator state
types `CS` (controller) and `VS` (view).  `controller`, `view`, `events`
and `running` are the four fields of the Rust struct; `cBorrowed`,
`vBorrowed` and `log` are ghost instrumentation described in the header
comment. -/
structure Scheduler (CS VS : Type) where
  controller : Option CS
  view : Option VS
  events : List Message
  running : Bool
  cBorrowed : Bool
  vBorrowed : Bool
  log : List (Message × Bool)
deriving DecidableEq, Repr

/-- Outcome of executing a scheduler operation with a given recursion-depth
budget: normal return with the final state, the fatal
`exit("This might be a deadlock")` path, or fuel exhaustion (the execution
has not returned at this depth). -/
inductive Res (σ : Type) where
  | ok : σ → Res σ
  | deadlock : Res σ
  | fuelOut : Res σ
deriving DecidableEq, Repr

/-- Constructor `Scheduler::new` (`src/scheduler.rs`): both collaborator
handles `None`, empty event stack, `running = false`.  Ghost fields start
at their quiescent values. -/
def Scheduler.new {CS VS : Type} : Scheduler CS VS :=
  { controller := none, view := none, events := [], running := false,
    cBorrowed := false, vBorrowed := false, log := [] }

/-- `Scheduler::set_view` (`src/scheduler.rs` line 51).  The body of the
Rust function is empty, so the state is returned unchanged and the
argument is dropped. -/
def Scheduler.set_view {CS VS : Type} (st : Scheduler CS VS) (v : VS) :
    Scheduler CS VS := st

/-- `Scheduler::set_controller` (`src/scheduler.rs` line 52).  The body of
the Rust function is empty, so the state is returned unchanged and the
argument is dropped. -/
def Scheduler.set_controller {CS VS : Type} (st : Scheduler CS VS) (c : CS) :
    Scheduler CS VS := st

/-- Pending scheduler activity: which of the mutually recursive operations
of `impl Scheduler` is being entered, with its arguments.  `addAll`
represents the sequence of `add_message` calls a collaborator performs
during its dispatch, executed in order. -/
inductive Call (CS VS : Type) where
  | addMessage : Scheduler CS VS → Message → Call CS VS
  | run : Scheduler CS VS → Call CS VS
  | nextMessage : Scheduler CS VS → Call CS VS
  | addAll : Scheduler CS VS → List Message → Call CS VS

/-- Executable semantics of the scheduler operations of `src/scheduler.rs`,
by structural recursion on the fuel (recursion-depth budget).  The four
arms translate, in order, `add_message` (lines 56-112), `run` (lines
115-158), `next_message` (lines 161-236), and the enqueues performed by a
collaborator while it is being dispatched. -/
def exec {CS VS : Type} (cstep : CS → ControllerMessage → CS × List Message)
    (vstep : VS → ViewMessage → VS × List Message) :
    Nat → Call CS VS → Res (Scheduler CS VS)
  | 0, _ => Res.fuelOut
  | Nat.succ fuel, c =>
    match c with
    | Call.addMessage st message =>
      -- `let running = { ... self.running.try_borrow() ... }`: scoped
      -- borrow, reads the flag.
      let running := st.running
      -- `self.events.try_borrow_mut()` then `events.push(message)`:
      -- scoped borrow, Vec::push appends at the back.
      let st1 := { st with events := st.events ++ [message] }
      -- `if !running { self.run(); }`
      if !running then exec cstep vstep fuel (Call.run st1) else Res.ok st1
    | Call.run st =>
      -- `events_len = events.len()`: scoped borrow.
      let events_len := st.events.length
      if events_len == 0 then
        -- `*running = false;` then return.
        Res.ok { st with running := false }
      else
        -- `*running = true;` then `self.next_message()`.
        exec cstep vstep fuel (Call.nextMessage { st with running := true })
    | Call.nextMessage st =>
      -- `let event = { ... Some(events.pop()) ... }`: scoped borrow,
      -- Vec::pop removes the last element if any.
      match st.events.getLast? with
      | none =>
        -- `event = Some(None)`: stack empty, `*running = false;`.
        Res.ok { st with running := false }
      | some ev =>
        let st1 := { st with events := st.events.dropLast }
        match ev with
        | Message.Controller e =>
          match st1.controller with
          | some cs =>
            -- `self.controller.try_borrow_mut()`: this borrow is held
            -- while `ag.call(e)` runs.
            if st1.cBorrowed then Res.deadlock else
            let p := cstep cs e
            let st2 := { st1 with
                cBorrowed := true
                controller := some p.1
                log := st1.log ++ [(Message.Controller e, true)] }
            -- the enqueues `ag.call(e)` performs, then the borrow is
            -- released and `self.run()` continues the drain.
            match exec cstep vstep fuel (Call.addAll st2 p.2) with
            | Res.ok st3 => exec cstep vstep fuel
                (Call.run { st3 with cBorrowed := false })
            | r => r
          | none =>
            -- `if let Some(ref mut ag)` fails: message dropped.
            exec cstep vstep fuel (Call.run
              { st1 with log := st1.log ++ [(Message.Controller e, false)] })
        | Message.View e =>
          match st1.view with
          | some vs =>
            if st1.vBorrowed then Res.deadlock else
            let p := vstep vs e
            let st2 := { st1 with
                vBorrowed := true
                view := some p.1
                log := st1.log ++ [(Message.View e, true)] }
            match exec cstep vstep fuel (Call.addAll st2 p.2) with
            | Res.ok st3 => exec cstep vstep fuel
                (Call.run { st3 with vBorrowed := false })
            | r => r
          | none =>
            exec cstep vstep fuel (Call.run
              { st1 with log := st1.log ++ [(Message.View e, false)] })
    | Call.addAll st ms =>
      match ms with
      | [] => Res.ok st
      | m :: rest =>
        match exec cstep vstep fuel (Call.addMessage st m) with
        | Res.ok st2 => exec cstep vstep fuel (Call.addAll st2 rest)
        | r => r

/-- `Scheduler::add_message` (`src/scheduler.rs` lines 56-112) with a
recursion-depth budget. -/
def add_message {CS VS : Type} (cstep : CS → ControllerMessage → CS × List Message)
    (vstep : VS → ViewMessage → VS × List Message) (fuel : Nat)
    (st : Scheduler CS VS) (m : Message) : Res (Scheduler CS VS) :=
  exec cstep vstep fuel (Call.addMessage st m)

/-- `Scheduler::run` (`src/scheduler.rs` lines 115-158) with a
recursion-depth budget. -/
def Scheduler.runLoop {CS VS : Type} (cstep : CS → ControllerMessage → CS × List Message)
    (vstep : VS → ViewMessage → VS × List Message) (fuel : Nat)
    (st : Scheduler CS VS) : Res (Scheduler CS VS) :=
  exec cstep vstep fuel (Call.run st)

/-- `Scheduler::next_message` (`src/scheduler.rs` lines 161-236) with a
recursion-depth budget. -/
def next_message {CS VS : Type} (cstep : CS → ControllerMessage → CS × List Message)
    (vstep : VS → ViewMessage → VS × List Message) (fuel : Nat)
    (st : Scheduler CS VS) : Res (Scheduler CS VS) :=
  exec cstep vstep fuel (Call.nextMessage st)

/-- The collaborator a message targets is bound: `c.isSome` for
Controller-targeted messages, `v.isSome` for View-targeted ones. -/
def targetBound {CS VS : Type} (c : Option CS) (v : Option VS) : Message → Bool
  | Message.Controller _ => c.isSome
  | Message.View _ => v.isSome

/-- Reference recursion describing one drain session over a list of
messages already in pop order (most recent first), for collaborators whose
dispatch enqueues nothing: returns the final controller state, the final
view state, and the dispatch log (message paired with `true` when it was
delivered, `false` when its target was unbound and it was dropped). -/
def procRev {CS VS : Type} (cstep : CS → ControllerMessage → CS × List Message)
    (vstep : VS → ViewMessage → VS × List Message) :
    Option CS → Option VS → List Message →
    Option CS × Option VS × List (Message × Bool)
  | c, v, [] => (c, v, [])
  | c, v, Message.Controller e :: rest =>
    match c with
    | some cs =>
      let r := procRev cstep vstep (some (cstep cs e).1) v rest
      (r.1, r.2.1, (Message.Controller e, true) :: r.2.2)
    | none =>
      let r := procRev cstep vstep none v rest
      (r.1, r.2.1, (Message.Controller e, false) :: r.2.2)
  | c, v, Message.View e :: rest =>
    match v with
    | some vs =>
      let r := procRev cstep vstep c (some (vstep vs e).1) rest
      (r.1, r.2.1, (Message.View e, true) :: r.2.2)
    | none =>
      let r := procRev cstep vstep c none rest
      (r.1, r.2.1, (Message.View e, false) :: r.2.2)

/-- The state a drain session started by `run` leaves behind when every
dispatch performed during it enqueues nothing: the stack is processed from
its top (`events.reverse`), the queue ends empty, the running flag ends
false, and the collaborator states and ghost log are as described by
`procRev`. -/
def drained {CS VS : Type} (cstep : CS → ControllerMessage → CS × List Message)
    (vstep : VS → ViewMessage → VS × List Message) (st : Scheduler CS VS) :
    Scheduler CS VS :=
  let r := procRev cstep vstep st.controller st.view st.events.reverse
  { st with
    controller := r.1
    view := r.2.1
    events := []
    running := false
    log := st.log ++ r.2.2 }

/-- Recorder controller: its state is the ordered list of payloads its
`call` entry point has received; it enqueues nothing. -/
def recC : List ControllerMessage → ControllerMessage →
    List ControllerMessage × List Message :=
  fun s p => (s ++ [p], [])

/-- Recorder view: its state is the ordered list of payloads its `call`
entry point has received; it enqueues nothing. -/
def recV : List ViewMessage → ViewMessage → List ViewMessage × List Message :=
  fun s p => (s ++ [p], [])

/-- Projection of a message to its Controller payload, if any. -/
def ctrlPayload : Message → Option ControllerMessage
  | Message.Controller e => some e
  | Message.View _ => none

/-- Projection of a message to its View payload, if any. -/
def viewPayload : Message → Option ViewMessage
  | Message.Controller _ => none
  | Message.View e => some e

/-- A scheduler state as the application bootstrap would produce it just
before a drain over `msgs` (pushed in order, so the last element is the
top of the stack), with collaborator handles `c` and `v` and quiescent
flags. -/
def initState {CS VS : Type} (c : Option CS) (v : Option VS)
    (msgs : List Message) : Scheduler CS VS :=
  { controller := c, view := v, events := msgs, running := false,
    cBorrowed := false, vBorrowed := false, log := [] }

/-- An `add_message` call terminates: some recursion depth suffices for it
to return normally. -/
def Terminates {CS VS : Type} (cstep : CS → ControllerMessage → CS × List Message)
    (vstep : VS → ViewMessage → VS × List Message) (st : Scheduler CS VS)
    (m : Message) : Prop :=
  ∃ fuel st', add_message cstep vstep fuel st m = Res.ok st'

/-- Controller whose dispatch re-enqueues one Controller-targeted message
each time it is called: each individual dispatch enqueues finitely many
messages (exactly one) and returns. -/
def pingC : Unit → ControllerMessage → Unit × List Message :=
  fun _ _ => ((), [Message.Controller (ControllerMessage.SetPage "loop")])

/-- View that does nothing. -/
def idleV : Unit → ViewMessage → Unit × List Message :=
  fun s _ => (s, [])

/-- Controller for the end-to-end scenario of the spec (§8): records every
payload it receives; its handler for `SetPage "init"` enqueues
`Message.Controller (SetPage "second")`. -/
def scenarioC : List String → ControllerMessage → List String × List Message
  | lg, ControllerMessage.SetPage h =>
    (lg ++ [h],
     if h = "init" then [Message.Controller (ControllerMessage.SetPage "second")]
     else [])
  | lg, _ => (lg, [])

section Store

/-- Todo item from `src/store.rs` (`pub struct Item`). -/
structure Item where
  id : String
  title : String
  completed : Bool
deriving DecidableEq, Repr

/-- Owned item list from `src/store.rs` (`pub struct ItemList`). -/
structure ItemList where
  list : List Item
deriving DecidableEq, Repr

/-- Borrowing item list from `src/store.rs` (`pub struct ItemListSlice`);
the borrowed references are modelled by the items they point to. -/
structure ItemListSlice where
  list : List Item
deriving DecidableEq, Repr

/-- `impl Into<ItemList> for ItemListSlice` (`src/store.rs` lines 433-437):
the body ignores `self` and returns `ItemList { list: vec![] }`. -/
def ItemListSlice.into (s : ItemListSlice) : ItemList :=
  { list := [] }

end Store

/-- States from which entering the given operation cannot violate the
exclusive-borrow discipline: outside a dispatch both collaborator cells
are unborrowed, and the enqueues performed during a dispatch (`addAll`)
happen while the running flag is set. -/
def goodCall {CS VS : Type} : Call CS VS → Prop
  | Call.addMessage st _ => st.cBorrowed = false ∧ st.vBorrowed = false
  | Call.run st => st.cBorrowed = false ∧ st.vBorrowed = false
  | Call.nextMessage st => st.cBorrowed = false ∧ st.vBorrowed = false ∧ st.running = true
  | Call.addAll st _ => st.running = true
/-- The message the `pingC` controller keeps re-enqueueing. -/
def pingMsg : Message := Message.Controller (ControllerMessage.SetPage "loop")
/-- A scheduler state inside the non-terminating ping session: exactly the
ping message on the stack, the drain active, the ping controller bound,
and the controller cell not borrowed. -/
def pingInv (st : Scheduler Unit Unit) : Prop :=
  st.events = [pingMsg] ∧ st.controller = some () ∧ st.cBorrowed = false
/-- The scheduler state for the non-termination counterexample: a ping
controller bound, empty stack, idle. -/
def pingStart : Scheduler Unit Unit :=
  { controller := some (), view := none, events := [], running := false,
    cBorrowed := false, vBorrowed := false, log := [] }

/-- Concrete state used by witnesses: recorder controller bound, view
unbound, one View-targeted message already queued. -/
def witSt : Scheduler (List ControllerMessage) (List ViewMessage) :=
  initState (some []) none [Message.View ViewMessage.ClearNewTodo]

/-- Concrete message used by witnesses. -/
def witMsg : Message := Message.Controller ControllerMessage.RemoveCompleted

/-- Concrete message sequence used by the LIFO witness. -/
def wit3msgs : List Message :=
  [Message.Controller (ControllerMessage.AddItem "a"),
   Message.View ViewMessage.ClearNewTodo,
   Message.Controller (ControllerMessage.SetPage "b")]

/-- Concrete state with the running flag set, used by the reentrancy
witness. -/
def wit4St : Scheduler (List ControllerMessage) (List ViewMessage) :=
  { controller := some [], view := some [], events := [Message.View ViewMessage.ClearNewTodo],
    running := true, cBorrowed := false, vBorrowed := false, log := [] }

/-- Concrete state with an empty queue but the running flag still set and
a nonempty log, used by the idle-run witness. -/
def wit8St : Scheduler (List ControllerMessage) (List ViewMessage) :=
  { controller := some [ControllerMessage.RemoveCompleted], view := none, events := [],
    running := true, cBorrowed := false, vBorrowed := false, log := [(pingMsg, false)] }

section Lemmas

variable {CS VS : Type}
variable (cstep : CS → ControllerMessage → CS × List Message)
variable (vstep : VS → ViewMessage → VS × List Message)

theorem exec_zero (c : Call CS VS) : exec cstep vstep 0 c = Res.fuelOut := rfl

theorem exec_addMessage (fuel : Nat) (st : Scheduler CS VS) (m : Message) :
    exec cstep vstep (fuel + 1) (Call.addMessage st m) =
      if st.running then Res.ok { st with events := st.events ++ [m] }
      else exec cstep vstep fuel (Call.run { st with events := st.events ++ [m] }) := by
  show (if !st.running then _ else _) = _
  cases st.running <;> rfl

theorem exec_run (fuel : Nat) (st : Scheduler CS VS) :
    exec cstep vstep (fuel + 1) (Call.run st) =
      if st.events.length = 0 then Res.ok { st with running := false }
      else exec cstep vstep fuel (Call.nextMessage { st with running := true }) := by
  show (if st.events.length == 0 then _ else _) = _
  rcases st.events with _ | ⟨a, l⟩ <;> rfl

theorem exec_addAll_nil (fuel : Nat) (st : Scheduler CS VS) :
    exec cstep vstep (fuel + 1) (Call.addAll st []) = Res.ok st := rfl

theorem exec_addAll_cons (fuel : Nat) (st : Scheduler CS VS) (m : Message)
    (rest : List Message) :
    exec cstep vstep (fuel + 1) (Call.addAll st (m :: rest)) =
      match exec cstep vstep fuel (Call.addMessage st m) with
      | Res.ok st2 => exec cstep vstep fuel (Call.addAll st2 rest)
      | r => r := rfl

theorem exec_nextMessage_empty (fuel : Nat) (st : Scheduler CS VS)
    (h : st.events = []) :
    exec cstep vstep (fuel + 1) (Call.nextMessage st) =
      Res.ok { st with running := false } := by
  simp [exec, h]

theorem exec_nextMessage_ctrl_unbound (fuel : Nat) (st : Scheduler CS VS)
    (l : List Message) (e : ControllerMessage)
    (h : st.events = l ++ [Message.Controller e]) (hc : st.controller = none) :
    exec cstep vstep (fuel + 1) (Call.nextMessage st) =
      exec cstep vstep fuel (Call.run
        { st with
          events := l
          log := st.log ++ [(Message.Controller e, false)] }) := by
  simp [exec, h, hc, List.getLast?_concat, List.dropLast_concat]

theorem exec_nextMessage_ctrl_bound (fuel : Nat) (st : Scheduler CS VS)
    (l : List Message) (e : ControllerMessage) (cs : CS)
    (h : st.events = l ++ [Message.Controller e]) (hc : st.controller = some cs)
    (hb : st.cBorrowed = false) :
    exec cstep vstep (fuel + 1) (Call.nextMessage st) =
      match exec cstep vstep fuel (Call.addAll
        { st with
          events := l
          cBorrowed := true
          controller := some (cstep cs e).1
          log := st.log ++ [(Message.Controller e, true)] } (cstep cs e).2) with
      | Res.ok st3 => exec cstep vstep fuel (Call.run { st3 with cBorrowed := false })
      | r => r := by
  simp [exec, h, hc, hb, List.getLast?_concat, List.dropLast_concat]

theorem exec_nextMessage_view_unbound (fuel : Nat) (st : Scheduler CS VS)
    (l : List Message) (e : ViewMessage)
    (h : st.events = l ++ [Message.View e]) (hv : st.view = none) :
    exec cstep vstep (fuel + 1) (Call.nextMessage st) =
      exec cstep vstep fuel (Call.run
        { st with
          events := l
          log := st.log ++ [(Message.View e, false)] }) := by
  simp [exec, h, hv, List.getLast?_concat, List.dropLast_concat]

theorem exec_nextMessage_view_bound (fuel : Nat) (st : Scheduler CS VS)
    (l : List Message) (e : ViewMessage) (vs : VS)
    (h : st.events = l ++ [Message.View e]) (hv : st.view = some vs)
    (hb : st.vBorrowed = false) :
    exec cstep vstep (fuel + 1) (Call.nextMessage st) =
      match exec cstep vstep fuel (Call.addAll
        { st with
          events := l
          vBorrowed := true
          view := some (vstep vs e).1
          log := st.log ++ [(Message.View e, true)] } (vstep vs e).2) with
      | Res.ok st3 => exec cstep vstep fuel (Call.run { st3 with vBorrowed := false })
      | r => r := by
  simp [exec, h, hv, hb, List.getLast?_concat, List.dropLast_concat]

theorem addAll_char (fuel : Nat) (st : Scheduler CS VS) (ms : List Message)
    (h : st.running = true) :
    exec cstep vstep fuel (Call.addAll st ms) = Res.fuelOut ∨
      exec cstep vstep fuel (Call.addAll st ms) =
        Res.ok { st with events := st.events ++ ms } := by
  induction fuel generalizing st ms with
  | zero => exact Or.inl rfl
  | succ fuel ih =>
    cases ms with
    | nil =>
      right
      rw [exec_addAll_nil]
      cases st
      simp
    | cons m rest =>
      rw [exec_addAll_cons]
      cases fuel with
      | zero => exact Or.inl rfl
      | succ g =>
        rw [exec_addMessage, if_pos h]
        rcases ih { st with events := st.events ++ [m] } rest h with hf | hok
        · left
          simp only [hf]
        · right
          simp only [hok]
          simp [List.append_assoc]


theorem exec_no_deadlock : ∀ (fuel : Nat) (c : Call CS VS), goodCall c →
    exec cstep vstep fuel c ≠ Res.deadlock := by
  intro fuel
  induction fuel with
  | zero =>
    intro c _ hh
    rw [exec_zero] at hh
    cases hh
  | succ fuel ih =>
    intro c hg
    cases c with
    | addMessage st m =>
      obtain ⟨hcb, hvb⟩ := hg
      rw [exec_addMessage]
      by_cases hr : st.running = true
      · rw [if_pos hr]
        intro hh
        cases hh
      · rw [if_neg hr]
        exact ih _ ⟨hcb, hvb⟩
    | run st =>
      obtain ⟨hcb, hvb⟩ := hg
      rw [exec_run]
      by_cases he : st.events.length = 0
      · rw [if_pos he]
        intro hh
        cases hh
      · rw [if_neg he]
        exact ih _ ⟨hcb, hvb, rfl⟩
    | addAll st ms =>
      rcases addAll_char cstep vstep (fuel + 1) st ms hg with hf | hok
      · rw [hf]
        intro hh
        cases hh
      · rw [hok]
        intro hh
        cases hh
    | nextMessage st =>
      obtain ⟨hcb, hvb, hr⟩ := hg
      rcases List.eq_nil_or_concat st.events with hnil | ⟨l, m, hcat⟩
      · rw [exec_nextMessage_empty cstep vstep fuel st hnil]
        intro hh
        cases hh
      · rw [List.concat_eq_append] at hcat
        cases m with
        | Controller e =>
          cases hctl : st.controller with
          | none =>
            rw [exec_nextMessage_ctrl_unbound cstep vstep fuel st l e hcat hctl]
            exact ih _ ⟨hcb, hvb⟩
          | some cs =>
            rw [exec_nextMessage_ctrl_bound cstep vstep fuel st l e cs hcat hctl hcb]
            rcases addAll_char cstep vstep fuel
              { st with
                events := l
                cBorrowed := true
                controller := some (cstep cs e).1
                log := st.log ++ [(Message.Controller e, true)] }
              (cstep cs e).2 hr with hf | hok
            · rw [hf]
              intro hh
              cases hh
            · rw [hok]
              exact ih _ ⟨rfl, hvb⟩
        | View e =>
          cases hvw : st.view with
          | none =>
            rw [exec_nextMessage_view_unbound cstep vstep fuel st l e hcat hvw]
            exact ih _ ⟨hcb, hvb⟩
          | some vs =>
            rw [exec_nextMessage_view_bound cstep vstep fuel st l e vs hcat hvw hvb]
            rcases addAll_char cstep vstep fuel
              { st with
                events := l
                vBorrowed := true
                view := some (vstep vs e).1
                log := st.log ++ [(Message.View e, true)] }
              (vstep vs e).2 hr with hf | hok
            · rw [hf]
              intro hh
              cases hh
            · rw [hok]
              exact ih _ ⟨hcb, rfl⟩

theorem run_drained : ∀ (l : List Message) (st : Scheduler CS VS) (fuel : Nat),
    st.events = l → st.cBorrowed = false → st.vBorrowed = false →
    (st.controller.isSome = true → ∀ s p, (cstep s p).2 = []) →
    (st.view.isSome = true → ∀ s p, (vstep s p).2 = []) →
    2 * l.length + 1 ≤ fuel →
    exec cstep vstep fuel (Call.run st) = Res.ok (drained cstep vstep st) := by
  intro l
  induction l using List.reverseRecOn with
  | nil =>
    intro st fuel hev hcb hvb hc hv hfuel
    obtain ⟨f, rfl⟩ : ∃ f, fuel = f + 1 := ⟨fuel - 1, by omega⟩
    rw [exec_run, if_pos (by rw [hev]; rfl)]
    unfold drained
    rw [hev]
    simp [procRev]
  | append_singleton l' m ih =>
    intro st fuel hev hcb hvb hc hv hfuel
    obtain ⟨c0, v0, ev0, r0, cb0, vb0, lg0⟩ := st
    simp only at hev hcb hvb hc hv
    subst hev hcb hvb
    rw [List.length_append] at hfuel
    simp only [List.length_singleton] at hfuel
    obtain ⟨g, rfl⟩ : ∃ g, fuel = g + 2 := ⟨fuel - 2, by omega⟩
    rw [show g + 2 = (g + 1) + 1 from rfl, exec_run, if_neg (by simp)]
    cases m with
    | Controller e =>
      cases c0 with
      | none =>
        rw [exec_nextMessage_ctrl_unbound cstep vstep g _ l' e rfl rfl]
        rw [ih _ g rfl rfl rfl hc hv (by omega)]
        congr 1
        simp [drained, procRev, List.append_assoc]
      | some cs =>
        have hout : (cstep cs e).2 = [] := hc rfl cs e
        rw [exec_nextMessage_ctrl_bound cstep vstep g _ l' e cs rfl rfl rfl]
        rw [hout]
        obtain ⟨k, rfl⟩ : ∃ k, g = k + 1 := ⟨g - 1, by omega⟩
        rw [exec_addAll_nil]
        dsimp only
        rw [ih _ (k + 1) rfl rfl rfl (fun _ => hc rfl) hv (by omega)]
        congr 1
        simp [drained, procRev, List.append_assoc]
    | View e =>
      cases v0 with
      | none =>
        rw [exec_nextMessage_view_unbound cstep vstep g _ l' e rfl rfl]
        rw [ih _ g rfl rfl rfl hc hv (by omega)]
        congr 1
        simp [drained, procRev, List.append_assoc]
      | some vs =>
        have hout : (vstep vs e).2 = [] := hv rfl vs e
        rw [exec_nextMessage_view_bound cstep vstep g _ l' e vs rfl rfl rfl]
        rw [hout]
        obtain ⟨k, rfl⟩ : ∃ k, g = k + 1 := ⟨g - 1, by omega⟩
        rw [exec_addAll_nil]
        dsimp only
        rw [ih _ (k + 1) rfl rfl rfl hc (fun _ => hv rfl) (by omega)]
        congr 1
        simp [drained, procRev, List.append_assoc]

theorem procRev_log (r : List Message) : ∀ (c : Option CS) (v : Option VS),
    (procRev cstep vstep c v r).2.2 = r.map (fun m => (m, targetBound c v m)) := by
  induction r with
  | nil => intro c v; rfl
  | cons m rest ih =>
    intro c v
    cases m with
    | Controller e =>
      cases c with
      | none => simp [procRev, targetBound, ih]
      | some cs => simp [procRev, targetBound, ih]
    | View e =>
      cases v with
      | none => simp [procRev, targetBound, ih]
      | some vs => simp [procRev, targetBound, ih]

theorem procRev_unbound (r : List Message) :
    procRev cstep vstep (none : Option CS) (none : Option VS) r =
      (none, none, r.map (fun m => (m, false))) := by
  induction r with
  | nil => rfl
  | cons m rest ih =>
    cases m with
    | Controller e => simp [procRev, ih]
    | View e => simp [procRev, ih]

theorem procRev_recorders (r : List Message) :
    ∀ (a : List ControllerMessage) (b : List ViewMessage),
    procRev recC recV (some a) (some b) r =
      (some (a ++ r.filterMap ctrlPayload), some (b ++ r.filterMap viewPayload),
       r.map (fun m => (m, true))) := by
  induction r with
  | nil => intro a b; simp [procRev]
  | cons m rest ih =>
    intro a b
    cases m with
    | Controller e => simp [procRev, recC, ih, ctrlPayload, viewPayload]
    | View e => simp [procRev, recV, ih, ctrlPayload, viewPayload]



theorem ping_run_fuelOut : ∀ (fuel : Nat) (st : Scheduler Unit Unit),
    pingInv st → exec pingC idleV fuel (Call.run st) = Res.fuelOut := by
  intro fuel
  induction fuel using Nat.strong_induction_on with
  | _ fuel ihs =>
    intro st hinv
    obtain ⟨hev, hctl, hcb⟩ := hinv
    match fuel with
    | 0 => rfl
    | 1 =>
      rw [exec_run, if_neg (by rw [hev]; simp)]
      rfl
    | (g + 2) =>
      rw [show g + 2 = (g + 1) + 1 from rfl, exec_run, if_neg (by rw [hev]; simp)]
      rw [exec_nextMessage_ctrl_bound pingC idleV g _ [] (ControllerMessage.SetPage "loop") ()
        (by simpa [pingMsg] using hev) (by simpa using hctl) (by simpa using hcb)]
      rcases addAll_char pingC idleV g
        { { st with running := true } with
          events := ([] : List Message)
          cBorrowed := true
          controller := some (pingC () (ControllerMessage.SetPage "loop")).1
          log := ({ st with running := true } : Scheduler Unit Unit).log ++
            [(Message.Controller (ControllerMessage.SetPage "loop"), true)] }
        (pingC () (ControllerMessage.SetPage "loop")).2 rfl with hf | hok
      · rw [hf]
      · rw [hok]
        exact ihs g (by omega) _ ⟨rfl, rfl, rfl⟩

end Lemmas



/-- Claim C2 as stated is false: with the ping controller bound (each of
whose dispatches enqueues exactly one message, hence finitely many, and
returns), the `add_message` call made while the running flag is false
never returns. -/
theorem claim_C2_counterexample : ¬ Terminates pingC idleV pingStart pingMsg := by
  rintro ⟨fuel, st', h⟩
  unfold add_message at h
  match fuel, h with
  | 0, h => exact absurd h (by rw [exec_zero]; intro hh; cases hh)
  | (f + 1), h =>
    rw [exec_addMessage, if_neg (by intro hh; cases hh)] at h
    rw [ping_run_fuelOut f _ ⟨rfl, rfl, rfl⟩] at h
    cases h


theorem drained_events {CS VS : Type} (cstep : CS → ControllerMessage → CS × List Message)
    (vstep : VS → ViewMessage → VS × List Message) (st : Scheduler CS VS) :
    (drained cstep vstep st).events = [] := rfl

theorem drained_running {CS VS : Type} (cstep : CS → ControllerMessage → CS × List Message)
    (vstep : VS → ViewMessage → VS × List Message) (st : Scheduler CS VS) :
    (drained cstep vstep st).running = false := rfl

theorem drained_controller {CS VS : Type} (cstep : CS → ControllerMessage → CS × List Message)
    (vstep : VS → ViewMessage → VS × List Message) (st : Scheduler CS VS) :
    (drained cstep vstep st).controller =
      (procRev cstep vstep st.controller st.view st.events.reverse).1 := rfl

theorem drained_view {CS VS : Type} (cstep : CS → ControllerMessage → CS × List Message)
    (vstep : VS → ViewMessage → VS × List Message) (st : Scheduler CS VS) :
    (drained cstep vstep st).view =
      (procRev cstep vstep st.controller st.view st.events.reverse).2.1 := rfl

theorem drained_log {CS VS : Type} (cstep : CS → ControllerMessage → CS × List Message)
    (vstep : VS → ViewMessage → VS × List Message) (st : Scheduler CS VS) :
    (drained cstep vstep st).log =
      st.log ++ (procRev cstep vstep st.controller st.view st.events.reverse).2.2 := rfl

theorem drained_flags {CS VS : Type} (cstep : CS → ControllerMessage → CS × List Message)
    (vstep : VS → ViewMessage → VS × List Message) (st : Scheduler CS VS) :
    (drained cstep vstep st).cBorrowed = st.cBorrowed ∧
      (drained cstep vstep st).vBorrowed = st.vBorrowed := ⟨rfl, rfl⟩

/-- Claim C1 (code evidence): `set_controller` / `set_view` do not bind
anything.  Both setters return the state unchanged, the controller handle
stays `None`, and a Controller-targeted message enqueued afterwards is
dropped (logged undelivered) instead of being delivered to the
collaborator passed to `set_controller`. -/
theorem claim_C1_setters_do_not_bind (c : List ControllerMessage) (v : List ViewMessage) :
    Scheduler.set_controller (Scheduler.new : Scheduler (List ControllerMessage) (List ViewMessage)) c = Scheduler.new
    ∧ Scheduler.set_view (Scheduler.new : Scheduler (List ControllerMessage) (List ViewMessage)) v = Scheduler.new
    ∧ (Scheduler.set_controller (Scheduler.new : Scheduler (List ControllerMessage) (List ViewMessage)) c).controller = none
    ∧ add_message recC recV 9
        (Scheduler.set_controller (Scheduler.new : Scheduler (List ControllerMessage) (List ViewMessage)) c)
        (Message.Controller (ControllerMessage.SetPage "x")) =
      Res.ok { controller := none, view := none, events := [], running := false,
               cBorrowed := false, vBorrowed := false,
               log := [(Message.Controller (ControllerMessage.SetPage "x"), false)] } :=
  ⟨rfl, rfl, rfl, rfl⟩

/-- Claim C2 (amended): an `add_message` call made while the running flag
is false, with quiescent borrow flags and collaborators whose dispatch
enqueues nothing, terminates; on return the queue is empty, the running
flag is false, and every message of the session (the prior queue contents
plus the new message) has been popped exactly once and either delivered
(target bound) or dropped (target unbound), as recorded by the log. -/
theorem claim_C2_amended {CS VS : Type}
    (cstep : CS → ControllerMessage → CS × List Message)
    (vstep : VS → ViewMessage → VS × List Message)
    (st : Scheduler CS VS) (m : Message)
    (hr : st.running = false) (hcb : st.cBorrowed = false) (hvb : st.vBorrowed = false)
    (hc : ∀ s p, (cstep s p).2 = []) (hv : ∀ s p, (vstep s p).2 = []) :
    add_message cstep vstep (2 * st.events.length + 4) st m =
      Res.ok (drained cstep vstep { st with events := st.events ++ [m] })
    ∧ (drained cstep vstep { st with events := st.events ++ [m] }).events = []
    ∧ (drained cstep vstep { st with events := st.events ++ [m] }).running = false
    ∧ (drained cstep vstep { st with events := st.events ++ [m] }).log =
        st.log ++ (st.events ++ [m]).reverse.map
          (fun mm => (mm, targetBound st.controller st.view mm)) := by
  refine ⟨?_, rfl, rfl, ?_⟩
  · unfold add_message
    rw [show 2 * st.events.length + 4 = (2 * st.events.length + 3) + 1 from rfl]
    rw [exec_addMessage, if_neg (by rw [hr]; intro hh; cases hh)]
    exact run_drained cstep vstep (st.events ++ [m]) _ _ rfl hcb hvb
      (fun _ => hc) (fun _ => hv) (by simp; omega)
  · rw [drained_log, procRev_log]
    try rfl

/-- Claim C3: messages are popped and dispatched in LIFO order.  Starting a
drain over a stack holding `msgs` (pushed in that order), with collaborators
that are unbound or whose dispatch enqueues nothing, the session processes
exactly `msgs.reverse`: the dispatch log lists the messages most recent
first, each delivered iff its target was bound. -/
theorem claim_C3_lifo {CS VS : Type}
    (cstep : CS → ControllerMessage → CS × List Message)
    (vstep : VS → ViewMessage → VS × List Message)
    (c : Option CS) (v : Option VS) (msgs : List Message)
    (hc : c.isSome = true → ∀ s p, (cstep s p).2 = [])
    (hv : v.isSome = true → ∀ s p, (vstep s p).2 = []) :
    Scheduler.runLoop cstep vstep (2 * msgs.length + 1) (initState c v msgs) =
      Res.ok (drained cstep vstep (initState c v msgs))
    ∧ (drained cstep vstep (initState c v msgs)).log =
        msgs.reverse.map (fun m => (m, targetBound c v m)) := by
  constructor
  · exact run_drained cstep vstep msgs _ _ rfl rfl rfl hc hv (by rfl)
  · rw [drained_log, procRev_log]
    try rfl

/-- Claim C4: an `add_message` call made while the running flag is true
only pushes the message onto the stack and returns; it does not start a
new drain, leaving all other state (including the dispatch log) untouched. -/
theorem claim_C4_reentrant_add_is_push {CS VS : Type}
    (cstep : CS → ControllerMessage → CS × List Message)
    (vstep : VS → ViewMessage → VS × List Message)
    (fuel : Nat) (st : Scheduler CS VS) (m : Message) (hr : st.running = true) :
    add_message cstep vstep (fuel + 1) st m =
      Res.ok { st with events := st.events ++ [m] } := by
  unfold add_message
  rw [exec_addMessage, if_pos hr]

/-- Claim C5 (code evidence): in the end-to-end scenario the bootstrap's
`set_view` / `set_controller` calls bind nothing, so after
`add_message(Controller(SetPage "init"))` returns, the controller handle
is still `None`, the scenario controller was never invoked (the only
message was dropped, never delivered), the queue is empty and the running
flag is false — instead of the controller log `["init", "second"]` the
claim expects. -/
theorem claim_C5_scenario_drops_init :
    (Scheduler.set_controller (Scheduler.set_view (Scheduler.new : Scheduler (List String) Unit) ()) []).controller = none
    ∧ add_message scenarioC idleV 9
        (Scheduler.set_controller (Scheduler.set_view (Scheduler.new : Scheduler (List String) Unit) ()) [])
        (Message.Controller (ControllerMessage.SetPage "init")) =
      Res.ok { controller := none, view := none, events := [], running := false,
               cBorrowed := false, vBorrowed := false,
               log := [(Message.Controller (ControllerMessage.SetPage "init"), false)] } :=
  ⟨rfl, rfl⟩

/-- Claim C6: every message whose target collaborator is unbound at dequeue
time is silently discarded: with both handles `None`, a drain over any
stack contents ends normally (no deadlock, no error outcome) with the
queue empty, the handles still `None` (no dispatch ever happened), and the
log recording each popped message as undelivered, most recent first. -/
theorem claim_C6_unbound_drop {CS VS : Type}
    (cstep : CS → ControllerMessage → CS × List Message)
    (vstep : VS → ViewMessage → VS × List Message) (msgs : List Message) :
    Scheduler.runLoop cstep vstep (2 * msgs.length + 1)
        (initState (none : Option CS) (none : Option VS) msgs) =
      Res.ok { controller := none, view := none, events := [], running := false,
               cBorrowed := false, vBorrowed := false,
               log := msgs.reverse.map (fun m => (m, false)) } := by
  have h := run_drained cstep vstep msgs
    (initState (none : Option CS) (none : Option VS) msgs) (2 * msgs.length + 1)
    rfl rfl rfl (fun hh => by cases hh) (fun hh => by cases hh) (by rfl)
  rw [show Scheduler.runLoop cstep vstep (2 * msgs.length + 1)
      (initState (none : Option CS) (none : Option VS) msgs) =
      exec cstep vstep (2 * msgs.length + 1)
      (Call.run (initState (none : Option CS) (none : Option VS) msgs)) from rfl, h]
  congr 1
  unfold drained initState
  dsimp only
  rw [procRev_unbound]
  simp

/-- Claim C7: under correct single-threaded use (quiescent borrow flags at
the call, collaborator dispatches interacting with the scheduler only
through the modelled enqueues), `add_message` never reaches the fatal
`exit("This might be a deadlock")` branches, whatever the collaborators,
the state and the recursion depth. -/
theorem claim_C7_no_deadlock {CS VS : Type}
    (cstep : CS → ControllerMessage → CS × List Message)
    (vstep : VS → ViewMessage → VS × List Message)
    (fuel : Nat) (st : Scheduler CS VS) (m : Message)
    (hcb : st.cBorrowed = false) (hvb : st.vBorrowed = false) :
    add_message cstep vstep fuel st m ≠ Res.deadlock :=
  exec_no_deadlock cstep vstep fuel (Call.addMessage st m) ⟨hcb, hvb⟩

/-- Claim C8: `run` on an empty queue only clears the running flag; queue,
collaborator handles and log are untouched. -/
theorem claim_C8_run_empty_noop {CS VS : Type}
    (cstep : CS → ControllerMessage → CS × List Message)
    (vstep : VS → ViewMessage → VS × List Message)
    (fuel : Nat) (st : Scheduler CS VS) (he : st.events = []) :
    Scheduler.runLoop cstep vstep (fuel + 1) st = Res.ok { st with running := false } := by
  unfold Scheduler.runLoop
  rw [exec_run, if_pos (by rw [he]; rfl)]

/-- Claim C9: payloads round-trip through the scheduler unmodified and are
routed solely by target tag: draining a stack `msgs` with recorder
collaborators bound leaves the controller holding exactly the
Controller payloads of the popped messages and the view exactly the View
payloads, in pop order, with every message logged as delivered. -/
theorem claim_C9_payload_roundtrip (msgs : List Message) :
    Scheduler.runLoop recC recV (2 * msgs.length + 1)
        (initState (some []) (some []) msgs) =
      Res.ok { controller := some (msgs.reverse.filterMap ctrlPayload),
               view := some (msgs.reverse.filterMap viewPayload),
               events := [], running := false, cBorrowed := false,
               vBorrowed := false,
               log := msgs.reverse.map (fun m => (m, true)) } := by
  have h := run_drained recC recV msgs
    (initState (some []) (some []) msgs) (2 * msgs.length + 1)
    rfl rfl rfl (fun _ s p => rfl) (fun _ s p => rfl) (by rfl)
  rw [show Scheduler.runLoop recC recV (2 * msgs.length + 1)
      (initState (some []) (some []) msgs) =
      exec recC recV (2 * msgs.length + 1)
      (Call.run (initState (some []) (some []) msgs)) from rfl, h]
  congr 1
  unfold drained initState
  dsimp only
  rw [procRev_recorders]
  simp

/-- Claim C10: converting an `ItemListSlice` to an `ItemList` discards all
elements: the result holds zero items whatever the slice contained. -/
theorem claim_C10_slice_into_empty (s : ItemListSlice) :
    (ItemListSlice.into s).list = [] ∧ (ItemListSlice.into s).list.length = 0 :=
  ⟨rfl, rfl⟩

/-- Witness for C2 (amended) at a concrete input: recorder controller
bound, view unbound, one message queued, one added. -/
theorem claim_C2_amended_witness :
    witSt.running = false ∧
    (add_message recC recV (2 * witSt.events.length + 4) witSt witMsg =
       Res.ok (drained recC recV { witSt with events := witSt.events ++ [witMsg] })
     ∧ (drained recC recV { witSt with events := witSt.events ++ [witMsg] }).events = []
     ∧ (drained recC recV { witSt with events := witSt.events ++ [witMsg] }).running = false
     ∧ (drained recC recV { witSt with events := witSt.events ++ [witMsg] }).log =
         witSt.log ++ (witSt.events ++ [witMsg]).reverse.map
           (fun mm => (mm, targetBound witSt.controller witSt.view mm))) :=
  ⟨rfl, claim_C2_amended recC recV witSt witMsg rfl rfl rfl
    (fun s p => rfl) (fun s p => rfl)⟩

/-- Witness for C3 at a concrete three-message stack. -/
theorem claim_C3_lifo_witness :
    Scheduler.runLoop recC recV (2 * wit3msgs.length + 1)
        (initState (some []) none wit3msgs) =
      Res.ok (drained recC recV (initState (some []) none wit3msgs))
    ∧ (drained recC recV (initState (some []) none wit3msgs)).log =
        wit3msgs.reverse.map (fun m =>
          (m, targetBound (some ([] : List ControllerMessage))
            (none : Option (List ViewMessage)) m)) :=
  claim_C3_lifo recC recV (some []) none wit3msgs
    (fun _ s p => rfl) (fun h => nomatch h)

/-- Witness for C4 at a concrete running state. -/
theorem claim_C4_witness :
    wit4St.running = true ∧
    add_message recC recV 3 wit4St witMsg =
      Res.ok { wit4St with events := wit4St.events ++ [witMsg] } :=
  ⟨rfl, claim_C4_reentrant_add_is_push recC recV 2 wit4St witMsg rfl⟩

/-- Witness for C7 at a concrete state, with the ping controller: even the
non-terminating session never reaches the deadlock exit. -/
theorem claim_C7_witness :
    pingStart.cBorrowed = false ∧ pingStart.vBorrowed = false ∧
    add_message pingC idleV 5 pingStart pingMsg ≠ Res.deadlock :=
  ⟨rfl, rfl, claim_C7_no_deadlock pingC idleV 5 pingStart pingMsg rfl rfl⟩

/-- Witness for C8 at a concrete state with empty queue, set running flag
and nonempty log. -/
theorem claim_C8_witness :
    wit8St.events = [] ∧
    Scheduler.runLoop recC recV 1 wit8St = Res.ok { wit8St with running := false } :=
  ⟨rfl, claim_C8_run_empty_noop recC recV 0 wit8St rfl⟩

end TodoMVC
